import Mathlib

/-!
Verification of the annotation-processing and split-assignment pipeline of the
rwm_dataset_tools repository: a shallow embedding of the functions in
`rwm_dataset_tools/dataset/processing.py`, `rwm_dataset_tools/dataset/formats/yolo.py`
and `rwm_dataset_tools/dataset/extraction.py`, followed by theorems about them.
Coordinates and probabilities are modelled as rationals; nullable DataFrame cells are
`Option`-valued, with `none` standing for a null/NaN cell.
-/

namespace RWM

/-- Python `str.startswith`: the second string is a character-sequence prefix of the
first. -/
def strStarts (s pre : String) : Bool := pre.toList.isPrefixOf s.toList

/-- Bounding box `[min_x, min_y, max_x, max_y]`, as in the numpy arrays built at the
call sites of `center_enclosed`. -/
structure Box where
  min_x : ℚ
  min_y : ℚ
  max_x : ℚ
  max_y : ℚ
  deriving Repr, DecidableEq

/-- Embeds `center_enclosed` (processing.py, lines 85-109). -/
def center_enclosed (inner_box outer_box : Box) : Bool :=
  let width := inner_box.max_x - inner_box.min_x
  let center_x := inner_box.min_x + width / 2
  let height := inner_box.max_y - inner_box.min_y
  let center_y := inner_box.min_y + height / 2
  decide (center_x > outer_box.min_x) &&
  decide (center_y > outer_box.min_y) &&
  decide (center_x < outer_box.max_x) &&
  decide (center_y < outer_box.max_y)

/-- Translation of a box by a fixed offset. -/
def translate_box (b : Box) (dx dy : ℚ) : Box :=
  ⟨b.min_x + dx, b.min_y + dy, b.max_x + dx, b.max_y + dy⟩

/-- One annotation row of the joined query result: the DataFrame rows flowing through
processing.py and yolo.py. Nullable columns are `Option`-valued. -/
structure Row where
  Id : Int
  ImageId : Int
  UploadId : Int
  FileName : String
  EPPOCode : Option String
  cotyledon : Int
  MinX : Option ℚ
  MinY : Option ℚ
  MaxX : Option ℚ
  MaxY : Option ℚ
  Width : ℚ
  Height : ℚ
  GrownWeed : Bool
  deriving Repr, DecidableEq

/-- The four coordinates of a row as a box, when none of them is null. -/
def row_box (r : Row) : Option Box :=
  match r.MinX, r.MinY, r.MaxX, r.MaxY with
  | some a, some b, some c, some d => some ⟨a, b, c, d⟩
  | _, _, _, _ => Option.none

/-- The `center_enclosed` test as invoked from `process_psez_annotations` on two rows
(processing.py, lines 59-68): a null coordinate enters the arithmetic as NaN, every
comparison against NaN is false in the source, so the test returns false. -/
def center_enclosed_rows (p c : Row) : Bool :=
  match row_box p, row_box c with
  | some ib, some ob => center_enclosed ib ob
  | _, _ => false

/-- Pandas `isin` on the nullable EPPOCode column: a null cell is never a member. -/
def eppo_isin (r : Row) (codes : List String) : Bool :=
  match r.EPPOCode with
  | some e => codes.contains e
  | Option.none => false

/-- Body of the per-PSEZ loop of `process_psez_annotations` (processing.py, lines
48-72): a PSEZ row is kept iff some non-PSEZ row of the same image whose code is in
`psez_crops` center-encloses it. -/
def psez_keep (non_psez_data : List Row) (psez_crops : List String) (p : Row) : Bool :=
  (non_psez_data.filter
      (fun c => c.ImageId == p.ImageId && eppo_isin c psez_crops)).any
    (fun c => center_enclosed_rows p c)

/-- Embeds `process_psez_annotations` (processing.py, lines 25-83). -/
def process_psez_annotations (data : List Row) (psez_crops : List String) : List Row :=
  let psez_data := data.filter (fun r => r.EPPOCode == some "PSEZ")
  let non_psez_data := data.filter (fun r => !(r.EPPOCode == some "PSEZ"))
  let valid_psez_data := psez_data.filter (psez_keep non_psez_data psez_crops)
  non_psez_data ++ valid_psez_data

/-- Prefix-normalization loop of `find_relevant_eppo` (processing.py, lines 123-126):
the loop does not break, and `eppo_code` is reassigned to every vocabulary entry the
current (possibly already collapsed) code starts with. -/
def collapse_eppo (eppo_code : String) (eppo_codes : List String) : String :=
  eppo_codes.foldl (fun c v => if strStarts c v then v else c) eppo_code

/-- Embeds `find_relevant_eppo` (processing.py, lines 111-136). -/
def find_relevant_eppo (eppo_code : String) (cotyledon_id : Int)
    (eppo_codes : List String) : Option String :=
  let code := collapse_eppo eppo_code eppo_codes
  if code ∈ eppo_codes then some code
  else if cotyledon_id = -100 then some "PPPMM"
  else if cotyledon_id = -101 then some "PPPDD"
  else Option.none

/-- The prefix rule as the spec words it: the earliest vocabulary entry of which the
original class code is a string-prefix extension. Written from the spec text, for
comparison with `collapse_eppo`. -/
def first_matching_entry_spec (eppo_code : String) (eppo_codes : List String) :
    Option String :=
  eppo_codes.find? (fun v => strStarts eppo_code v)

/-- No entry of the list is a proper prefix of another entry: whenever one entry starts
with another, the two are equal. -/
def PrefixFree (l : List String) : Prop :=
  ∀ a ∈ l, ∀ b ∈ l, strStarts a b = true → a = b

/-- The `fixed_sets` block of the configuration. -/
structure FixedSets where
  train_uploads : List Int
  val_uploads : List Int
  test_uploads : List Int
  train_images : List Int
  val_images : List Int
  test_images : List Int
  deriving Repr, DecidableEq

/-- The `split_probabilities` block of the configuration. -/
structure SplitProbs where
  train : ℚ
  val : ℚ
  test : ℚ
  deriving Repr, DecidableEq

/-- The `dataset` block of the configuration, restricted to the fields read by
`determine_dataset_split`. -/
structure DatasetConfig where
  fixed_sets : FixedSets
  split_probabilities : SplitProbs
  deriving Repr, DecidableEq

/-- The configuration dictionary, restricted to the keys read here. -/
structure Config where
  dataset : DatasetConfig
  deriving Repr, DecidableEq

/-- A numpy RandomState, modelled as a stream of uniform draws in `[0,1)` together with
a cursor into the stream. -/
structure Rng where
  seq : ℕ → ℚ
  pos : ℕ

/-- One call of `rng.choice(3, p=[p0, p1, p2])`: a single uniform draw is consumed and
the index is chosen by inverse-CDF lookup on the cumulative weights, which is how numpy
realizes a weighted choice. -/
def rng_choice3 (p0 p1 : ℚ) (rng : Rng) : ℕ × Rng :=
  let u := rng.seq rng.pos
  ((if u < p0 then 0 else if u < p0 + p1 then 1 else 2), ⟨rng.seq, rng.pos + 1⟩)

/-- Embeds `determine_dataset_split` (processing.py, lines 138-197). The result is
`none` when the group is empty (`iloc[0]` raises in the source). The orchestrator
always passes the run's RNG, so the `rng is None` default branch is not modelled. -/
def determine_dataset_split (data_rows : List Row) (config : Config) (rng : Rng) :
    Option (String × Rng) :=
  match data_rows with
  | [] => Option.none
  | row :: _ =>
    let upload_id := row.UploadId
    let image_id := row.ImageId
    let grown_weed := row.GrownWeed
    let fixed_sets := config.dataset.fixed_sets
    if upload_id ∈ fixed_sets.train_uploads then some ("train", rng)
    else if upload_id ∈ fixed_sets.val_uploads then some ("val", rng)
    else if upload_id ∈ fixed_sets.test_uploads then some ("test", rng)
    else if image_id ∈ fixed_sets.train_images then some ("train", rng)
    else if image_id ∈ fixed_sets.val_images then some ("val", rng)
    else if image_id ∈ fixed_sets.test_images then some ("test", rng)
    else if grown_weed then some ("train", rng)
    else
      let split_probs := config.dataset.split_probabilities
      let s := split_probs.train + split_probs.val + split_probs.test
      let r := rng_choice3 (split_probs.train / s) (split_probs.val / s) rng
      some (["train", "val", "test"].getD r.1 "", r.2)

/-- The split-assignment contract as the spec words it (fixed upload lists, then fixed
image lists, then the grown rule, then one weighted draw over the three split names
with the normalized weights). Written from the spec text, for comparison with
`determine_dataset_split`. -/
def assignSplit_spec (row : Row) (config : Config) (rng : Rng) : String × Rng :=
  let fs := config.dataset.fixed_sets
  if row.UploadId ∈ fs.train_uploads then ("train", rng)
  else if row.UploadId ∈ fs.val_uploads then ("val", rng)
  else if row.UploadId ∈ fs.test_uploads then ("test", rng)
  else if row.ImageId ∈ fs.train_images then ("train", rng)
  else if row.ImageId ∈ fs.val_images then ("val", rng)
  else if row.ImageId ∈ fs.test_images then ("test", rng)
  else if row.GrownWeed then ("train", rng)
  else
    let sp := config.dataset.split_probabilities
    let s := sp.train + sp.val + sp.test
    let u := rng.seq rng.pos
    ((if u < sp.train / s then "train"
      else if u < sp.train / s + sp.val / s then "val"
      else "test"), ⟨rng.seq, rng.pos + 1⟩)

/-- Observable outcome of `row_to_yolo_format`: `skipped` models a `None` return,
`line` carries the five values interpolated into the label line, and `valueError`
models the exception `list.index` raises when the resolved code is absent from
`self.eppo_codes`. A `none` numeric field stands for a non-finite float (NaN propagated
from a null coordinate). -/
inductive YoloResult where
  | skipped : YoloResult
  | line (class_index : ℕ)
      (center_x_norm center_y_norm box_width_norm box_height_norm : Option ℚ) :
      YoloResult
  | valueError : YoloResult
  deriving Repr, DecidableEq

/-- Subtraction on nullable floats: NaN propagates. -/
def osub (a b : Option ℚ) : Option ℚ :=
  match a, b with
  | some x, some y => some (x - y)
  | _, _ => Option.none

/-- The expression `float(w)/2 + m` on nullable floats, with NaN propagation. -/
def ohalf_add (w m : Option ℚ) : Option ℚ :=
  match w, m with
  | some x, some y => some (x / 2 + y)
  | _, _ => Option.none

/-- Division of a nullable float by a plain float; NaN propagates and division by zero
is likewise non-finite. -/
def odiv (x : Option ℚ) (w : ℚ) : Option ℚ :=
  if w = 0 then Option.none else x.map (fun v => v / w)

/-- Embeds `row_to_yolo_format` (yolo.py, lines 116-164), with `self.eppo_codes` passed
explicitly. -/
def row_to_yolo_format (eppo_codes : List String) (row : Row) : YoloResult :=
  match row.EPPOCode with
  | Option.none => YoloResult.skipped
  | some code =>
    match find_relevant_eppo code row.cotyledon eppo_codes with
    | Option.none => YoloResult.skipped
    | some eppo_code =>
      match eppo_codes.findIdx? (fun v => v == eppo_code) with
      | Option.none => YoloResult.valueError
      | some class_index =>
        let box_width := osub row.MaxX row.MinX
        let box_height := osub row.MaxY row.MinY
        let center_x := ohalf_add box_width row.MinX
        let center_y := ohalf_add box_height row.MinY
        YoloResult.line class_index (odiv center_x row.Width) (odiv center_y row.Height)
          (odiv box_width row.Width) (odiv box_height row.Height)

/-- Outcome of the external collaborators for one image: whether the source image file
exists, and whether the image-file and label-file steps succeed (an exception in either
step is caught and counted as an error by the orchestrator). -/
structure ImageEnv where
  source_exists : Bool
  image_file_ok : Bool
  label_file_ok : Bool
  deriving Repr, DecidableEq

/-- The statistics dictionary of `_create_dataset_files`. -/
structure Stats where
  total_images : ℕ
  train_images : ℕ
  val_images : ℕ
  test_images : ℕ
  total_annotations : ℕ
  train_annotations : ℕ
  val_annotations : ℕ
  test_annotations : ℕ
  skipped_images : ℕ
  errors : ℕ
  deriving Repr, DecidableEq

/-- The updates `stats[f'{split}_images'] += 1`,
`stats[f'{split}_annotations'] += len(annotations)` and
`stats['total_annotations'] += len(annotations)` (extraction.py, lines 173-175);
`split` is always one of the three split names when this point is reached. -/
def bump_split (st : Stats) (split : String) (n : ℕ) : Stats :=
  if split = "train" then
    { st with train_images := st.train_images + 1,
              train_annotations := st.train_annotations + n,
              total_annotations := st.total_annotations + n }
  else if split = "val" then
    { st with val_images := st.val_images + 1,
              val_annotations := st.val_annotations + n,
              total_annotations := st.total_annotations + n }
  else if split = "test" then
    { st with test_images := st.test_images + 1,
              test_annotations := st.test_annotations + n,
              total_annotations := st.total_annotations + n }
  else st

/-- Body of the per-image loop of `_create_dataset_files` (extraction.py, lines
134-183): split assignment, source-existence check, image-file step, label-file step,
then the statistics update; every caught exception increments `errors`, and a missing
source file increments `skipped_images`. -/
def process_image (config : Config) (st : Stats) (group : List Row) (env : ImageEnv)
    (rng : Rng) : Stats × Rng :=
  match determine_dataset_split group config rng with
  | Option.none => ({ st with errors := st.errors + 1 }, rng)
  | some (split, rng') =>
    if !env.source_exists then
      ({ st with skipped_images := st.skipped_images + 1 }, rng')
    else if !env.image_file_ok then ({ st with errors := st.errors + 1 }, rng')
    else if !env.label_file_ok then ({ st with errors := st.errors + 1 }, rng')
    else (bump_split st split group.length, rng')

/-- The initial statistics dictionary of `_create_dataset_files` (extraction.py, lines
110-121). -/
def init_stats (n : ℕ) : Stats :=
  { total_images := n, train_images := 0, val_images := 0, test_images := 0,
    total_annotations := 0, train_annotations := 0, val_annotations := 0,
    test_annotations := 0, skipped_images := 0, errors := 0 }

/-- Embeds `_create_dataset_files` (extraction.py, lines 99-193): a fold of the
per-image loop over the grouped images, threading the statistics and the run RNG. -/
def create_dataset_files (config : Config) (images : List (List Row × ImageEnv))
    (rng : Rng) : Stats × Rng :=
  images.foldl (fun acc gi => process_image config acc.1 gi.1 gi.2 acc.2)
    (init_stats images.length, rng)

/-- A deterministic stream of draws for concrete runs. -/
def sample_rng : Rng := ⟨fun _ => 1 / 2, 0⟩

/-- A configuration with empty fixed lists and weights 7:2:1. -/
def sample_config : Config :=
  ⟨⟨⟨[], [], [], [], [], []⟩, ⟨7 / 10, 2 / 10, 1 / 10⟩⟩⟩

/-- An ordinary annotation row. -/
def sample_row : Row :=
  { Id := 1, ImageId := 42, UploadId := 7, FileName := "a.jpg",
    EPPOCode := some "SOLTU", cotyledon := 0, MinX := some 10, MinY := some 10,
    MaxX := some 20, MaxY := some 20, Width := 100, Height := 100, GrownWeed := false }

/-- A grown-weed row, so that split assignment is deterministic. -/
def grown_row : Row :=
  { Id := 2, ImageId := 43, UploadId := 7, FileName := "b.jpg",
    EPPOCode := some "SOLTU", cotyledon := 0, MinX := some 10, MinY := some 10,
    MaxX := some 20, MaxY := some 20, Width := 100, Height := 100, GrownWeed := true }

/-- A row whose MinX and MinY cells are null but whose class is in the vocabulary. -/
def null_coord_row : Row :=
  { Id := 3, ImageId := 44, UploadId := 7, FileName := "c.jpg",
    EPPOCode := some "SOLTU", cotyledon := 0, MinX := Option.none, MinY := Option.none,
    MaxX := some 20, MaxY := some 20, Width := 100, Height := 100, GrownWeed := false }

/-- A row whose class code is out of vocabulary and whose cotyledon is the monocot
sentinel. -/
def sentinel_row : Row :=
  { Id := 4, ImageId := 45, UploadId := 7, FileName := "d.jpg",
    EPPOCode := some "ZZZ", cotyledon := -100, MinX := some 0, MinY := some 0,
    MaxX := some 20, MaxY := some 20, Width := 100, Height := 100, GrownWeed := false }

/-- A row whose box spans the full image. -/
def full_span_row : Row :=
  { Id := 5, ImageId := 46, UploadId := 7, FileName := "e.jpg",
    EPPOCode := some "SOLTU", cotyledon := 0, MinX := some 0, MinY := some 0,
    MaxX := some 100, MaxY := some 50, Width := 100, Height := 50, GrownWeed := false }

/-- An environment in which the image-file step fails (as it does in the current source
for every image, since the orchestrator calls the non-existent method
`create_image_file`) while the source file exists. -/
def err_env : ImageEnv := ⟨true, false, true⟩

/-- A configuration whose fixed train-upload list contains upload 7, so that split
assignment is decided by a fixed list for a non-grown row. -/
def fixed_config : Config :=
  ⟨⟨⟨[7], [], [], [], [], []⟩, ⟨7 / 10, 2 / 10, 1 / 10⟩⟩⟩

/-- The collapse loop leaves a code unchanged when every vocabulary entry the code
starts with is the code itself. -/
theorem collapse_eppo_fixed (l : List String) (c : String)
    (h : ∀ v ∈ l, strStarts c v = true → c = v) : collapse_eppo c l = c := by
  unfold collapse_eppo
  induction l with
  | nil => rfl
  | cons w l ih =>
    simp only [List.foldl_cons]
    by_cases hw : strStarts c w = true
    · rw [if_pos hw, ← h w (by simp) hw]
      exact ih (fun v hv hs => h v (by simp [hv]) hs)
    · rw [if_neg hw]
      exact ih (fun v hv hs => h v (by simp [hv]) hs)

/-- Characterization of `center_enclosed` as four strict comparisons, in source
order. -/
theorem center_enclosed_eq_true_iff (i o : Box) :
    center_enclosed i o = true ↔
      (o.min_x < i.min_x + (i.max_x - i.min_x) / 2 ∧
       o.min_y < i.min_y + (i.max_y - i.min_y) / 2 ∧
       i.min_x + (i.max_x - i.min_x) / 2 < o.max_x ∧
       i.min_y + (i.max_y - i.min_y) / 2 < o.max_y) := by
  simp [center_enclosed, and_assoc]

/-- C5: `center_enclosed` returns true exactly when the inner box's center
`(min_x + (max_x - min_x)/2, min_y + (max_y - min_y)/2)` lies strictly between the
outer box's bounds in both axes (so a center exactly on the outer boundary yields
false), and the test is invariant under translating both boxes by the same offset. -/
theorem center_enclosed_strict_and_translation :
    ∀ inner_box outer_box : Box,
      (center_enclosed inner_box outer_box = true ↔
        ((outer_box.min_x < inner_box.min_x + (inner_box.max_x - inner_box.min_x) / 2 ∧
          inner_box.min_x + (inner_box.max_x - inner_box.min_x) / 2 < outer_box.max_x) ∧
         (outer_box.min_y < inner_box.min_y + (inner_box.max_y - inner_box.min_y) / 2 ∧
          inner_box.min_y + (inner_box.max_y - inner_box.min_y) / 2 < outer_box.max_y)))
      ∧ ∀ dx dy : ℚ,
          center_enclosed (translate_box inner_box dx dy) (translate_box outer_box dx dy) =
            center_enclosed inner_box outer_box := by
  intro i o
  constructor
  · rw [center_enclosed_eq_true_iff]
    tauto
  · intro dx dy
    rw [Bool.eq_iff_iff, center_enclosed_eq_true_iff, center_enclosed_eq_true_iff]
    simp only [translate_box]
    constructor
    · rintro ⟨h1, h2, h3, h4⟩
      exact ⟨by linarith, by linarith, by linarith, by linarith⟩
    · rintro ⟨h1, h2, h3, h4⟩
      exact ⟨by linarith, by linarith, by linarith, by linarith⟩

/-- C4 counterexample: with vocabulary `["AB", "A"]` and class code `"ABC"`, both
entries are prefixes of the code and the earliest is `"AB"`, but the loop collapses the
code to `"A"`: the collapse cascades, and the earliest matching entry does not win. -/
theorem collapse_not_first_counterexample :
    collapse_eppo "ABC" ["AB", "A"] = "A" ∧
    first_matching_entry_spec "ABC" ["AB", "A"] = some "AB" ∧
    ("A" : String) ≠ "AB" := by decide

/-- C4 (amended): prefix normalization is a left-to-right cascade: scanning the
vocabulary in order, the current code is replaced by each entry the current code starts
with, so later entries act on the already-collapsed code. If no entry is a prefix of
the class code, the code is left unchanged; and when the vocabulary is prefix-free, the
earliest entry that is a prefix of the class code is the code used for the membership
test. -/
theorem collapse_eppo_cascade :
    (∀ code vocab, (∀ v ∈ vocab, strStarts code v = false) →
      collapse_eppo code vocab = code)
    ∧ (∀ code (l₁ l₂ : List String) (v : String), PrefixFree (l₁ ++ v :: l₂) →
        strStarts code v = true → (∀ u ∈ l₁, strStarts code u = false) →
        collapse_eppo code (l₁ ++ v :: l₂) = v) := by
  constructor
  · intro code vocab h
    exact collapse_eppo_fixed vocab code
      (fun v hv hs => absurd hs (by simp [h v hv]))
  · intro code l₁ l₂ v hpf hv hl₁
    unfold collapse_eppo
    rw [List.foldl_append]
    have h1 : List.foldl (fun c v => if strStarts c v then v else c) code l₁ = code :=
      collapse_eppo_fixed l₁ code (fun u hu hs => absurd hs (by simp [hl₁ u hu]))
    rw [h1, List.foldl_cons, if_pos hv]
    exact collapse_eppo_fixed l₂ v (fun w hw hs =>
      hpf v (by simp) w (by simp [hw]) hs)

/-- C4 witness: an unmatched code is left unchanged, and in the prefix-free vocabulary
`["SOLTU"]` the suffix variant `"SOLTU1"` collapses to `"SOLTU"`. -/
theorem collapse_eppo_cascade_witness :
    collapse_eppo "ZZZ" ["SOLTU"] = "ZZZ" ∧
    collapse_eppo "SOLTU1" ["SOLTU"] = "SOLTU" := by
  refine ⟨collapse_eppo_cascade.1 "ZZZ" ["SOLTU"] (by decide), ?_⟩
  exact collapse_eppo_cascade.2 "SOLTU1" [] [] "SOLTU"
    (by unfold PrefixFree; decide) (by decide) (by decide)

/-- C6 counterexample: `"ABC"` is a member of the vocabulary `["AB", "ABC"]`, yet
resolution returns `"AB"`, not `"ABC"`: the collapse loop rewrites an in-vocabulary
code to an earlier entry that is a proper prefix of it. -/
theorem resolve_idem_counterexample :
    ("ABC" ∈ ["AB", "ABC"]) ∧
    find_relevant_eppo "ABC" 0 ["AB", "ABC"] = some "AB" ∧
    (some "AB" : Option String) ≠ some "ABC" := by decide

/-- C6 (amended): class resolution returns an in-vocabulary code unchanged, for every
auxiliary discriminator, provided no other vocabulary entry is a prefix of that code
(in particular whenever the vocabulary is prefix-free). -/
theorem resolve_idempotent_no_proper (vocab : List String) (code : String) (aux : Int)
    (hmem : code ∈ vocab) (hnp : ∀ e ∈ vocab, strStarts code e = true → e = code) :
    find_relevant_eppo code aux vocab = some code := by
  have hc : collapse_eppo code vocab = code :=
    collapse_eppo_fixed vocab code (fun v hv hs => (hnp v hv hs).symm)
  simp [find_relevant_eppo, hc, hmem]

/-- C6 witness: in the vocabulary `["SOLTU"]` the member `"SOLTU"` resolves to
itself. -/
theorem resolve_idempotent_no_proper_witness :
    find_relevant_eppo "SOLTU" 0 ["SOLTU"] = some "SOLTU" :=
  resolve_idempotent_no_proper ["SOLTU"] "SOLTU" 0 (by decide) (by decide)

set_option maxHeartbeats 1000000 in
/-- C1: on every nonempty image group, `determine_dataset_split` returns exactly the
spec's priority cascade on the first row — fixed upload lists, then fixed image lists,
then the grown rule (returning `train` with the RNG untouched), then a single weighted
draw over the three split names — and the three normalized weights sum to 1 whenever
the configured weights have a nonzero sum. -/
theorem split_assign_matches_spec (r : Row) (t : List Row) (config : Config)
    (rng : Rng) :
    determine_dataset_split (r :: t) config rng = some (assignSplit_spec r config rng)
    ∧ (config.dataset.split_probabilities.train +
          config.dataset.split_probabilities.val +
          config.dataset.split_probabilities.test ≠ 0 →
        config.dataset.split_probabilities.train /
            (config.dataset.split_probabilities.train +
              config.dataset.split_probabilities.val +
              config.dataset.split_probabilities.test) +
          config.dataset.split_probabilities.val /
            (config.dataset.split_probabilities.train +
              config.dataset.split_probabilities.val +
              config.dataset.split_probabilities.test) +
          config.dataset.split_probabilities.test /
            (config.dataset.split_probabilities.train +
              config.dataset.split_probabilities.val +
              config.dataset.split_probabilities.test) = 1) := by
  constructor
  · simp only [determine_dataset_split, assignSplit_spec, rng_choice3]
    split_ifs <;> rfl
  · intro h
    rw [div_add_div_same, div_add_div_same, div_self h]

/-- C1 witness: a concrete row, configuration and RNG, with the weight sum 7/10 + 2/10
+ 1/10 nonzero. -/
theorem split_assign_matches_spec_witness :
    determine_dataset_split [sample_row] sample_config sample_rng =
      some (assignSplit_spec sample_row sample_config sample_rng)
    ∧ sample_config.dataset.split_probabilities.train /
          (sample_config.dataset.split_probabilities.train +
            sample_config.dataset.split_probabilities.val +
            sample_config.dataset.split_probabilities.test) +
        sample_config.dataset.split_probabilities.val /
          (sample_config.dataset.split_probabilities.train +
            sample_config.dataset.split_probabilities.val +
            sample_config.dataset.split_probabilities.test) +
        sample_config.dataset.split_probabilities.test /
          (sample_config.dataset.split_probabilities.train +
            sample_config.dataset.split_probabilities.val +
            sample_config.dataset.split_probabilities.test) = 1 := by
  have h := split_assign_matches_spec sample_row [] sample_config sample_rng
  exact ⟨h.1, h.2 (by norm_num [sample_config])⟩

/-- C10: split assignment reads only the first row's UploadId, ImageId and GrownWeed:
two groups whose first rows agree on those three fields get the same result from the
same RNG state; the returned RNG is either untouched or advanced by exactly one draw;
it is untouched (zero draws) whenever any fixed upload or image list matches or the
first row is grown, and advanced by exactly one draw when no fixed list matches and
the row is not grown. -/
theorem split_first_row_only (r1 r2 : Row) (t1 t2 : List Row) (config : Config)
    (rng : Rng) (hu : r1.UploadId = r2.UploadId) (hi : r1.ImageId = r2.ImageId)
    (hg : r1.GrownWeed = r2.GrownWeed) :
    determine_dataset_split (r1 :: t1) config rng =
      determine_dataset_split (r2 :: t2) config rng
    ∧ (∀ s rng', determine_dataset_split (r1 :: t1) config rng = some (s, rng') →
        rng' = rng ∨ rng' = ⟨rng.seq, rng.pos + 1⟩)
    ∧ ((r1.UploadId ∈ config.dataset.fixed_sets.train_uploads ∨
        r1.UploadId ∈ config.dataset.fixed_sets.val_uploads ∨
        r1.UploadId ∈ config.dataset.fixed_sets.test_uploads ∨
        r1.ImageId ∈ config.dataset.fixed_sets.train_images ∨
        r1.ImageId ∈ config.dataset.fixed_sets.val_images ∨
        r1.ImageId ∈ config.dataset.fixed_sets.test_images ∨
        r1.GrownWeed = true) →
        ∃ s, determine_dataset_split (r1 :: t1) config rng = some (s, rng))
    ∧ (r1.GrownWeed = false →
        r1.UploadId ∉ config.dataset.fixed_sets.train_uploads →
        r1.UploadId ∉ config.dataset.fixed_sets.val_uploads →
        r1.UploadId ∉ config.dataset.fixed_sets.test_uploads →
        r1.ImageId ∉ config.dataset.fixed_sets.train_images →
        r1.ImageId ∉ config.dataset.fixed_sets.val_images →
        r1.ImageId ∉ config.dataset.fixed_sets.test_images →
        ∃ s, determine_dataset_split (r1 :: t1) config rng =
          some (s, ⟨rng.seq, rng.pos + 1⟩)) := by
  refine ⟨?_, ?_, ?_, ?_⟩
  · simp only [determine_dataset_split]
    rw [hu, hi, hg]
  · intro s rng' h
    simp only [determine_dataset_split, rng_choice3] at h
    split_ifs at h <;>
      (simp only [Option.some.injEq, Prod.mk.injEq] at h;
       first
       | exact Or.inl h.2.symm
       | exact Or.inr h.2.symm)
  · intro hfix
    simp only [determine_dataset_split]
    split_ifs with h1 h2 h3 h4 h5 h6 h7
    · exact ⟨_, rfl⟩
    · exact ⟨_, rfl⟩
    · exact ⟨_, rfl⟩
    · exact ⟨_, rfl⟩
    · exact ⟨_, rfl⟩
    · exact ⟨_, rfl⟩
    · exact ⟨_, rfl⟩
    · rcases hfix with h | h | h | h | h | h | h <;> contradiction
  · intro h0 n1 n2 n3 n4 n5 n6
    simp only [determine_dataset_split, rng_choice3]
    rw [if_neg n1, if_neg n2, if_neg n3, if_neg n4, if_neg n5, if_neg n6,
      if_neg (by simp [h0])]
    exact ⟨_, rfl⟩

/-- C10 witness: identical first rows with different tails give identical results; a
non-grown row matching the fixed train-upload list consumes zero draws, and so does a
grown row under empty fixed lists. -/
theorem split_first_row_only_witness :
    (determine_dataset_split [sample_row] fixed_config sample_rng =
      determine_dataset_split [sample_row, grown_row] fixed_config sample_rng)
    ∧ (∃ s, determine_dataset_split [sample_row] fixed_config sample_rng =
        some (s, sample_rng))
    ∧ (∃ s, determine_dataset_split [grown_row] sample_config sample_rng =
        some (s, sample_rng)) := by
  have h1 := split_first_row_only sample_row sample_row [] [grown_row] fixed_config
    sample_rng rfl rfl rfl
  have h2 := split_first_row_only grown_row grown_row [] [] sample_config sample_rng
    rfl rfl rfl
  exact ⟨h1.1, h1.2.2.1 (Or.inl (by decide)),
    h2.2.2.1 (Or.inr (Or.inr (Or.inr (Or.inr (Or.inr (Or.inr rfl))))))⟩

/-- Splitting a list on a predicate and re-filtering the first part is, up to
permutation, a single filter: the non-matching rows plus the matching rows that pass a
second test. -/
theorem filter_split_perm {a : Type} (l : List a) (p q : a → Bool) :
    List.Perm ((l.filter fun r => !(p r)) ++ (l.filter p).filter q)
      (l.filter fun r => !(p r) || q r) := by
  induction l with
  | nil => simp
  | cons x l ih =>
    cases hp : p x with
    | true =>
      have h1 : (x :: l).filter (fun r => !(p r)) = l.filter (fun r => !(p r)) := by
        simp [List.filter_cons, hp]
      have h2 : (x :: l).filter p = x :: l.filter p := by
        simp [List.filter_cons, hp]
      cases hq : q x with
      | true =>
        have h3 : (x :: l.filter p).filter q = x :: (l.filter p).filter q := by
          simp [List.filter_cons, hq]
        have h4 : (x :: l).filter (fun r => !(p r) || q r) =
            x :: l.filter (fun r => !(p r) || q r) := by
          simp [List.filter_cons, hp, hq]
        rw [h1, h2, h3, h4]
        exact List.Perm.trans List.perm_middle (ih.cons x)
      | false =>
        have h3 : (x :: l.filter p).filter q = (l.filter p).filter q := by
          simp [List.filter_cons, hq]
        have h4 : (x :: l).filter (fun r => !(p r) || q r) =
            l.filter (fun r => !(p r) || q r) := by
          simp [List.filter_cons, hp, hq]
        rw [h1, h2, h3, h4]
        exact ih
    | false =>
      have h1 : (x :: l).filter (fun r => !(p r)) =
          x :: l.filter (fun r => !(p r)) := by
        simp [List.filter_cons, hp]
      have h2 : (x :: l).filter p = l.filter p := by
        simp [List.filter_cons, hp]
      have h4 : (x :: l).filter (fun r => !(p r) || q r) =
          x :: l.filter (fun r => !(p r) || q r) := by
        simp [List.filter_cons, hp]
      rw [h1, h2, h4, List.cons_append]
      exact ih.cons x

/-- The `isin` test succeeds exactly on rows whose class code is present and in the
list. -/
theorem eppo_isin_eq_true_iff (r : Row) (codes : List String) :
    eppo_isin r codes = true ↔ ∃ e, r.EPPOCode = some e ∧ e ∈ codes := by
  cases h : r.EPPOCode with
  | none => simp [eppo_isin, h]
  | some e => simp [eppo_isin, h]

/-- C2: the PSEZ filter returns, up to order, exactly the non-PSEZ rows plus the PSEZ
rows passing the containment test (so rows are neither duplicated nor mutated), and a
PSEZ row passes the test iff some non-PSEZ row of the same image, with class code in
the configured container list, strictly encloses its center. -/
theorem process_psez_characterization (data : List Row) (psez_crops : List String) :
    List.Perm (process_psez_annotations data psez_crops)
      (data.filter fun r =>
        !(r.EPPOCode == some "PSEZ") ||
          psez_keep (data.filter fun r => !(r.EPPOCode == some "PSEZ")) psez_crops r)
    ∧ ∀ p : Row,
        (psez_keep (data.filter fun r => !(r.EPPOCode == some "PSEZ")) psez_crops p
            = true ↔
          ∃ c, c ∈ data ∧ ¬(c.EPPOCode = some "PSEZ") ∧ c.ImageId = p.ImageId ∧
            (∃ e, c.EPPOCode = some e ∧ e ∈ psez_crops) ∧
            center_enclosed_rows p c = true) := by
  constructor
  · simp only [process_psez_annotations]
    exact filter_split_perm data _ _
  · intro p
    simp only [psez_keep, List.any_eq_true, List.mem_filter, Bool.and_eq_true,
      beq_iff_eq, eppo_isin_eq_true_iff, Bool.not_eq_true', beq_eq_false_iff_ne,
      ne_eq]
    constructor
    · rintro ⟨c, ⟨⟨hc, hne⟩, him, e, he, hecrops⟩, henc⟩
      exact ⟨c, hc, hne, him, ⟨e, he, hecrops⟩, henc⟩
    · rintro ⟨c, hc, hne, him, ⟨e, he, hecrops⟩, henc⟩
      exact ⟨c, ⟨⟨hc, hne⟩, him, e, he, hecrops⟩, henc⟩

/-- A membership-style search by `==` succeeds on members. -/
theorem findIdx?_beq_isSome {c : String} {l : List String} (h : c ∈ l) :
    ∃ i, l.findIdx? (fun v => v == c) = some i := by
  cases hf : l.findIdx? (fun v => v == c) with
  | some i => exact ⟨i, rfl⟩
  | none =>
    rw [List.findIdx?_eq_none_iff] at hf
    have := hf c h
    simp at this

/-- A membership-style search by `==` fails on non-members. -/
theorem findIdx?_beq_eq_none {c : String} {l : List String} (h : c ∉ l) :
    l.findIdx? (fun v => v == c) = Option.none := by
  rw [List.findIdx?_eq_none_iff]
  intro x hx
  simp only [beq_eq_false_iff_ne, ne_eq]
  rintro rfl
  exact h hx

/-- Every successful resolution returns either a vocabulary member or one of the two
catch-all labels. -/
theorem find_relevant_eppo_cases {code : String} {cot : Int} {vocab : List String}
    {c : String} (h : find_relevant_eppo code cot vocab = some c) :
    c ∈ vocab ∨ c = "PPPMM" ∨ c = "PPPDD" := by
  simp only [find_relevant_eppo] at h
  split_ifs at h with h1 h2 h3
  · exact Or.inl ((Option.some.inj h) ▸ h1)
  · exact Or.inr (Or.inl (Option.some.inj h).symm)
  · exact Or.inr (Or.inr (Option.some.inj h).symm)

/-- C3 counterexample: a row whose MinX and MinY cells are null but whose class
`"SOLTU"` is in the vocabulary is not rejected: a label line is emitted, and every
value computed from the null coordinates is non-finite (NaN). -/
theorem yolo_null_line_counterexample :
    row_to_yolo_format ["SOLTU"] null_coord_row =
      YoloResult.line 0 Option.none Option.none Option.none Option.none ∧
    row_to_yolo_format ["SOLTU"] null_coord_row ≠ YoloResult.skipped := by decide

/-- C3 (amended): `row_to_yolo_format` returns nothing exactly when the row's class
cell is null or class resolution returns nothing; null coordinates are NOT checked, and
a row with a resolvable in-vocabulary class but null coordinates still produces a label
line, with the null propagating as NaN into the computed values. -/
theorem yolo_skipped_iff (eppo_codes : List String) (row : Row) :
    row_to_yolo_format eppo_codes row = YoloResult.skipped ↔
      row.EPPOCode = Option.none ∨
        ∃ code, row.EPPOCode = some code ∧
          find_relevant_eppo code row.cotyledon eppo_codes = Option.none := by
  cases hE : row.EPPOCode with
  | none => simp [row_to_yolo_format, hE]
  | some code =>
    cases hf : find_relevant_eppo code row.cotyledon eppo_codes with
    | none => simp [row_to_yolo_format, hE, hf]
    | some c =>
      cases hidx : eppo_codes.findIdx? (fun v => v == c) with
      | none => simp [row_to_yolo_format, hE, hf, hidx]
      | some i => simp [row_to_yolo_format, hE, hf, hidx]

/-- C8: on a row whose box spans the full image (MinX = MinY = 0, MaxX = Width,
MaxY = Height, both positive) and whose class resolves to a vocabulary member, the
encoder emits the normalized values (1/2, 1/2, 1, 1). -/
theorem yolo_full_span_encoding (eppo_codes : List String) (row : Row)
    (code c : String) (hE : row.EPPOCode = some code)
    (hf : find_relevant_eppo code row.cotyledon eppo_codes = some c)
    (hc : c ∈ eppo_codes) (hx : row.MinX = some 0) (hy : row.MinY = some 0)
    (hX : row.MaxX = some row.Width) (hY : row.MaxY = some row.Height)
    (hW : 0 < row.Width) (hH : 0 < row.Height) :
    ∃ class_index, row_to_yolo_format eppo_codes row =
      YoloResult.line class_index (some (1 / 2)) (some (1 / 2)) (some 1) (some 1) := by
  obtain ⟨i, hidx⟩ := findIdx?_beq_isSome hc
  refine ⟨i, ?_⟩
  have hW' : row.Width ≠ 0 := ne_of_gt hW
  have hH' : row.Height ≠ 0 := ne_of_gt hH
  simp only [row_to_yolo_format, hE, hf, hidx, hx, hy, hX, hY, osub, ohalf_add, odiv]
  simp only [if_neg hW', if_neg hH', Option.map_some']
  have e1 : ((row.Width - 0) / 2 + 0) / row.Width = 1 / 2 := by
    rw [sub_zero, add_zero, div_div]
    rw [div_eq_div_iff (by positivity) (by norm_num)]
    ring
  have e2 : ((row.Height - 0) / 2 + 0) / row.Height = 1 / 2 := by
    rw [sub_zero, add_zero, div_div]
    rw [div_eq_div_iff (by positivity) (by norm_num)]
    ring
  have e3 : (row.Width - 0) / row.Width = 1 := by
    rw [sub_zero]
    exact div_self hW'
  have e4 : (row.Height - 0) / row.Height = 1 := by
    rw [sub_zero]
    exact div_self hH'
  rw [e1, e2, e3, e4]

/-- C8 witness: a concrete full-span row of a 100 x 50 image. -/
theorem yolo_full_span_encoding_witness :
    ∃ class_index, row_to_yolo_format ["SOLTU"] full_span_row =
      YoloResult.line class_index (some (1 / 2)) (some (1 / 2)) (some 1) (some 1) :=
  yolo_full_span_encoding ["SOLTU"] full_span_row "SOLTU" "SOLTU" rfl (by decide)
    (by decide) rfl rfl rfl rfl (by norm_num [full_span_row])
    (by norm_num [full_span_row])

/-- C9: if resolution goes through a cotyledon sentinel branch and the corresponding
catch-all label is not in the vocabulary, the encoder hits the `list.index` error
(ValueError) rather than skipping; and when both catch-all labels are vocabulary
members, the error branch is unreachable for every row. -/
theorem yolo_value_error_spec (eppo_codes : List String) :
    (∀ (row : Row) (code : String), row.EPPOCode = some code →
      collapse_eppo code eppo_codes ∉ eppo_codes →
      ((row.cotyledon = -100 ∧ "PPPMM" ∉ eppo_codes) ∨
        (row.cotyledon = -101 ∧ "PPPDD" ∉ eppo_codes)) →
      row_to_yolo_format eppo_codes row = YoloResult.valueError)
    ∧ ("PPPMM" ∈ eppo_codes → "PPPDD" ∈ eppo_codes →
        ∀ row : Row, row_to_yolo_format eppo_codes row ≠ YoloResult.valueError) := by
  constructor
  · rintro row code hE hnm (⟨hcot, hM⟩ | ⟨hcot, hD⟩)
    · have hf : find_relevant_eppo code row.cotyledon eppo_codes = some "PPPMM" := by
        simp [find_relevant_eppo, hnm, hcot]
      simp [row_to_yolo_format, hE, hf, findIdx?_beq_eq_none hM]
    · have hf : find_relevant_eppo code row.cotyledon eppo_codes = some "PPPDD" := by
        simp [find_relevant_eppo, hnm, hcot]
      simp [row_to_yolo_format, hE, hf, findIdx?_beq_eq_none hD]
  · intro hM hD row
    cases hE : row.EPPOCode with
    | none => simp [row_to_yolo_format, hE]
    | some code =>
      cases hf : find_relevant_eppo code row.cotyledon eppo_codes with
      | none => simp [row_to_yolo_format, hE, hf]
      | some c =>
        have hcv : c ∈ eppo_codes := by
          rcases find_relevant_eppo_cases hf with h | h | h
          · exact h
          · exact h ▸ hM
          · exact h ▸ hD
        obtain ⟨i, hidx⟩ := findIdx?_beq_isSome hcv
        simp [row_to_yolo_format, hE, hf, hidx]

/-- C9 witness: the monocot sentinel with a vocabulary missing `"PPPMM"` raises, and
with both catch-alls present no row can raise. -/
theorem yolo_value_error_spec_witness :
    row_to_yolo_format ["AAA"] sentinel_row = YoloResult.valueError ∧
    row_to_yolo_format ["PPPMM", "PPPDD"] sentinel_row ≠ YoloResult.valueError := by
  constructor
  · exact (yolo_value_error_spec ["AAA"]).1 sentinel_row "ZZZ" rfl (by decide)
      (Or.inl ⟨by decide, by decide⟩)
  · exact (yolo_value_error_spec ["PPPMM", "PPPDD"]).2 (by decide) (by decide)
      sentinel_row

/-- The split string produced by `determine_dataset_split` is always one of the three
split names. -/
theorem determine_split_values {g : List Row} {config : Config} {rng : Rng}
    {s : String} {rng' : Rng}
    (h : determine_dataset_split g config rng = some (s, rng')) :
    s = "train" ∨ s = "val" ∨ s = "test" := by
  cases g with
  | nil => simp [determine_dataset_split] at h
  | cons r t =>
    simp only [determine_dataset_split, rng_choice3] at h
    split_ifs at h <;> simp_all

/-- One pass of the per-image loop keeps `total_images`, adds exactly one to the sum of
the per-split, skipped and error image counters, and changes `total_annotations` by the
same amount as the sum of the per-split annotation counters. -/
theorem process_image_step (config : Config) (st : Stats) (group : List Row)
    (env : ImageEnv) (rng : Rng) :
    ((process_image config st group env rng).1.total_images = st.total_images)
    ∧ ((process_image config st group env rng).1.train_images +
        (process_image config st group env rng).1.val_images +
        (process_image config st group env rng).1.test_images +
        (process_image config st group env rng).1.skipped_images +
        (process_image config st group env rng).1.errors =
        st.train_images + st.val_images + st.test_images + st.skipped_images +
          st.errors + 1)
    ∧ ((process_image config st group env rng).1.total_annotations +
        st.train_annotations + st.val_annotations + st.test_annotations =
        st.total_annotations +
          (process_image config st group env rng).1.train_annotations +
          (process_image config st group env rng).1.val_annotations +
          (process_image config st group env rng).1.test_annotations) := by
  rcases hd : determine_dataset_split group config rng with _ | ⟨split, rng'⟩
  · simp [process_image, hd] <;> omega
  · rcases determine_split_values hd with hs | hs | hs <;> subst hs <;>
      (simp only [process_image, hd, bump_split]; split_ifs <;> simp <;> omega)

/-- Threading any starting statistics through the per-image fold preserves
`total_images`, increments the image-outcome counters by the number of images, and
keeps `total_annotations` in step with the per-split annotation counters. -/
theorem create_files_fold (config : Config) (images : List (List Row × ImageEnv)) :
    ∀ (st : Stats) (rng : Rng),
      ((images.foldl (fun acc gi => process_image config acc.1 gi.1 gi.2 acc.2)
          (st, rng)).1.total_images = st.total_images)
      ∧ ((images.foldl (fun acc gi => process_image config acc.1 gi.1 gi.2 acc.2)
            (st, rng)).1.train_images +
          (images.foldl (fun acc gi => process_image config acc.1 gi.1 gi.2 acc.2)
            (st, rng)).1.val_images +
          (images.foldl (fun acc gi => process_image config acc.1 gi.1 gi.2 acc.2)
            (st, rng)).1.test_images +
          (images.foldl (fun acc gi => process_image config acc.1 gi.1 gi.2 acc.2)
            (st, rng)).1.skipped_images +
          (images.foldl (fun acc gi => process_image config acc.1 gi.1 gi.2 acc.2)
            (st, rng)).1.errors =
          st.train_images + st.val_images + st.test_images + st.skipped_images +
            st.errors + images.length)
      ∧ ((images.foldl (fun acc gi => process_image config acc.1 gi.1 gi.2 acc.2)
            (st, rng)).1.total_annotations +
          st.train_annotations + st.val_annotations + st.test_annotations =
          st.total_annotations +
            (images.foldl (fun acc gi => process_image config acc.1 gi.1 gi.2 acc.2)
              (st, rng)).1.train_annotations +
            (images.foldl (fun acc gi => process_image config acc.1 gi.1 gi.2 acc.2)
              (st, rng)).1.val_annotations +
            (images.foldl (fun acc gi => process_image config acc.1 gi.1 gi.2 acc.2)
              (st, rng)).1.test_annotations) := by
  induction images with
  | nil => intro st rng; simp
  | cons gi rest ih =>
    intro st rng
    simp only [List.foldl_cons, List.length_cons]
    obtain ⟨e1, e2, e3⟩ := process_image_step config st gi.1 gi.2 rng
    obtain ⟨f1, f2, f3⟩ := ih (process_image config st gi.1 gi.2 rng).1
      (process_image config st gi.1 gi.2 rng).2
    simp only [Prod.mk.eta] at f1 f2 f3
    refine ⟨by omega, by omega, by omega⟩

/-- C7 counterexample: a run of one image whose image-file step fails (as every image
does in the current source, which calls the non-existent method `create_image_file`)
gives total_images = 1 while the per-split and skipped image counters are all 0: the
claimed equation omits the `errors` counter. -/
theorem stats_total_images_counterexample :
    ¬ ((create_dataset_files sample_config [([grown_row], err_env)]
          sample_rng).1.total_images =
        (create_dataset_files sample_config [([grown_row], err_env)]
          sample_rng).1.train_images +
        (create_dataset_files sample_config [([grown_row], err_env)]
          sample_rng).1.val_images +
        (create_dataset_files sample_config [([grown_row], err_env)]
          sample_rng).1.test_images +
        (create_dataset_files sample_config [([grown_row], err_env)]
          sample_rng).1.skipped_images) := by
  decide

/-- C7 (amended): at the end of every run, total_annotations equals train_annotations +
val_annotations + test_annotations, and total_images equals train_images + val_images
+ test_images + skipped_images + errors (the error counter must be included, since an
image whose image-file or label-file step fails is counted in `errors` and in no other
counter). -/
theorem stats_invariant_amended (config : Config)
    (images : List (List Row × ImageEnv)) (rng : Rng) :
    ((create_dataset_files config images rng).1.total_annotations =
      (create_dataset_files config images rng).1.train_annotations +
      (create_dataset_files config images rng).1.val_annotations +
      (create_dataset_files config images rng).1.test_annotations)
    ∧ ((create_dataset_files config images rng).1.total_images =
      (create_dataset_files config images rng).1.train_images +
      (create_dataset_files config images rng).1.val_images +
      (create_dataset_files config images rng).1.test_images +
      (create_dataset_files config images rng).1.skipped_images +
      (create_dataset_files config images rng).1.errors) := by
  simp only [create_dataset_files]
  obtain ⟨f1, f2, f3⟩ := create_files_fold config images (init_stats images.length) rng
  have g1 : (init_stats images.length).total_images = images.length := rfl
  have g2 : (init_stats images.length).train_images = 0 := rfl
  have g3 : (init_stats images.length).val_images = 0 := rfl
  have g4 : (init_stats images.length).test_images = 0 := rfl
  have g5 : (init_stats images.length).skipped_images = 0 := rfl
  have g6 : (init_stats images.length).errors = 0 := rfl
  have g7 : (init_stats images.length).total_annotations = 0 := rfl
  have g8 : (init_stats images.length).train_annotations = 0 := rfl
  have g9 : (init_stats images.length).val_annotations = 0 := rfl
  have g10 : (init_stats images.length).test_annotations = 0 := rfl
  exact ⟨by omega, by omega⟩

end RWM
